import Mathlib

/-!
Shallow embedding of `src/client.rs` of the televideo-term repository:
the content-acquisition and caching layer (`TelevideoClient`), its two
TTL caches, URL construction, error paths, and the HTML text extractor
(`parse_html`). External library calls (the HTTP transport, the HTML
parser of the `scraper` crate, the `image` decoder) are modelled as
oracle parameters; all logic written in the repository itself (cache
policy, URL building, marker narrowing, the anchor-rewrite regex, line
splitting) is embedded exactly.
-/

set_option autoImplicit false

namespace Televideo

/-- Key of both caches: `(page, sub_page)`, the Rust `(u16, u16)` pair. -/
abbrev PageKey := Nat × Nat

/-- Model of `image::DynamicImage`: an opaque decoded value. -/
abbrev DynamicImage := Nat

/-- `struct TelevideoPage` of `client.rs`. -/
structure TelevideoPage where
  page_number : Nat
  sub_page : Nat
  lines : List String
  timestamp : String
  deriving Repr, DecidableEq

/-- Association-list model of `HashMap::get` (keys are unique after inserts). -/
def mapGet {α : Type} : List (PageKey × α) → PageKey → Option α
  | [], _ => none
  | (k', v) :: rest, k => if k' = k then some v else mapGet rest k

/-- Association-list model of `HashMap::insert`: replaces any entry for the key. -/
def mapInsert {α : Type} (m : List (PageKey × α)) (k : PageKey) (v : α) :
    List (PageKey × α) :=
  (k, v) :: m.filter (fun kv => decide (kv.1 ≠ k))

/-- `struct TelevideoClient`: the two caches and the two endpoint templates.
`SystemTime` instants are modelled as nanosecond counts (`Nat`). -/
structure TelevideoClient where
  cache : List (PageKey × (TelevideoPage × Nat))
  image_cache : List (PageKey × (DynamicImage × Nat))
  base_url : String
  image_base_url : String

/-- `TelevideoClient::new()`. -/
def TelevideoClient.new : TelevideoClient where
  cache := []
  image_cache := []
  base_url := "https://www.servizitelevideo.rai.it/televideo/pub/solotesto.jsp"
  image_base_url := "http://www.televideo.rai.it/televideo/pub/tt4web/Nazionale"

/-- Nanoseconds in `s` seconds (`Duration::from_secs`). -/
def secsToNanos (s : Nat) : Nat := s * 1000000000

/-- `SystemTime::elapsed`: `none` when the clock went backwards. -/
def elapsedSince (t now : Nat) : Option Nat :=
  if t ≤ now then some (now - t) else none

/-- The cache freshness test of both fetch operations:
`time.elapsed().unwrap_or(Duration::from_secs(301)) < Duration::from_secs(300)`. -/
def isFresh (t now : Nat) : Bool :=
  (elapsedSince t now).getD (secsToNanos 301) < secsToNanos 300

/-- URL built by `fetch_page` for a cache miss. -/
def text_url (base : String) (page sub_page : Nat) : String :=
  if sub_page > 1 then
    base ++ "?pagina=" ++ toString page ++ "&sottopagina=" ++ toString sub_page
  else
    base ++ "?pagina=" ++ toString page

/-- URL built by `fetch_image` for a cache miss. -/
def image_url (base : String) (page sub_page : Nat) : String :=
  if sub_page > 1 then
    base ++ "/16_9_page-" ++ toString page ++ "." ++ toString sub_page ++ ".png"
  else
    base ++ "/16_9_page-" ++ toString page ++ ".png"

/-! ### String machinery for `parse_html` (exact models of `str::find`,
slicing, the anchor regex and `str::lines`). -/

/-- `strip_prefix`-style helper: drop `p` from the front of `s` when it is
a prefix, `none` otherwise. -/
def dropPre? : List Char → List Char → Option (List Char)
  | [], s => some s
  | _ :: _, [] => none
  | p :: ps, c :: cs => if p = c then dropPre? ps cs else none

/-- Whether `p` is a prefix of `s` (Boolean). -/
def isPre (p s : List Char) : Bool := (dropPre? p s).isSome

/-- `str::find` for a literal needle: byte/char index of the first occurrence. -/
def listFind (needle : List Char) : List Char → Option Nat
  | [] => if isPre needle [] then some 0 else none
  | c :: rest =>
    if isPre needle (c :: rest) then some 0
    else (listFind needle rest).map (· + 1)

/-- `"<!-- SOLOTESTO PAGINA E SOTTOPAGINA -->"` of `parse_html`. -/
def start_marker : List Char := "<!-- SOLOTESTO PAGINA E SOTTOPAGINA -->".toList

/-- `"<!-- /SOLOTESTO PAGINA E SOTTOPAGINA -->"` of `parse_html`. -/
def end_marker : List Char := "<!-- /SOLOTESTO PAGINA E SOTTOPAGINA -->".toList

/-- The marker-narrowing step of `parse_html` (lines 71–84 of `client.rs`):
slice strictly between the first start marker and the first end marker after
it, falling back to the whole document when either is absent. -/
def content_section (html : List Char) : List Char :=
  match listFind start_marker html with
  | some start_pos =>
    let content_start := start_pos + start_marker.length
    let rest := html.drop content_start
    match listFind end_marker rest with
    | some end_pos => rest.take end_pos
    | none => html
  | none => html

/-- `"<a href=\""`, the opening literal of the anchor regex
`<a href="[^"]*">([^<]+)</a>` of `parse_html`. -/
def linkOpen : List Char := "<a href=\"".toList

/-- `"\">"`, the middle literal of the anchor regex. -/
def linkMid : List Char := "\">".toList

/-- `"</a>"`, the closing literal of the anchor regex. -/
def linkClose : List Char := "</a>".toList

/-- Match of the anchor regex `<a href="[^"]*">([^<]+)</a>` anchored at the
start of `s`: returns the capture group (the visible text) and the remainder
of `s` after the match. The two character classes exclude the character that
opens the following literal, so the greedy scan is exact. -/
def matchLink (s : List Char) : Option (List Char × List Char) :=
  match dropPre? linkOpen s with
  | none => none
  | some s1 =>
    let u := s1.takeWhile (fun c => decide (c ≠ '"'))
    match dropPre? linkMid (s1.drop u.length) with
    | none => none
    | some s3 =>
      let t := s3.takeWhile (fun c => decide (c ≠ '<'))
      if t = [] then none
      else
        match dropPre? linkClose (s3.drop t.length) with
        | none => none
        | some s5 => some (t, s5)

/-- `Regex::replace_all(&pre_html, "$1")` for the anchor regex: leftmost
scan, each match replaced by its capture group. -/
def replaceLinks (s : List Char) : List Char :=
  match s with
  | [] => []
  | c :: rest =>
    match h : matchLink (c :: rest) with
    | some (t, rem) => t ++ replaceLinks rem
    | none => c :: replaceLinks rest
termination_by s.length
decreasing_by
  · have key : ∀ p q r : List Char, dropPre? p q = some r →
        r.length + p.length = q.length := by
      intro p
      induction p with
      | nil => intro q r hq; simp only [dropPre?, Option.some.injEq] at hq; simp [hq]
      | cons x xs ih =>
        intro q r hq
        cases q with
        | nil => simp [dropPre?] at hq
        | cons y ys =>
          by_cases hxy : x = y
          · simp only [dropPre?, if_pos hxy] at hq
            have := ih ys r hq
            simp only [List.length_cons]
            omega
          · simp [dropPre?, hxy] at hq
    simp only [matchLink] at h
    split at h
    · exact absurd h (by simp)
    next s1 h1 =>
      split at h
      · exact absurd h (by simp)
      next s3 h3 =>
        split at h
        · exact absurd h (by simp)
        · split at h
          · exact absurd h (by simp)
          next s5 h5 =>
            have k1 := key _ _ _ h1
            have k3 := key _ _ _ h3
            have k5 := key _ _ _ h5
            have d1 : (s1.drop (s1.takeWhile (fun c => decide (c ≠ '"'))).length).length ≤ s1.length := by
              simp [List.length_drop]
            have d3 : (s3.drop (s3.takeWhile (fun c => decide (c ≠ '<'))).length).length ≤ s3.length := by
              simp [List.length_drop]
            have e1 : linkOpen.length = 9 := rfl
            have e3 : linkMid.length = 2 := rfl
            have e5 : linkClose.length = 4 := rfl
            cases h
            simp only [List.length_cons] at k1 ⊢
            omega
  · simp only [List.length_cons]
    omega

/-- One piece of `str::split_inclusive('\n')`: pieces keep their trailing
newline; the final piece may lack one; the empty string has no pieces. -/
def splitInclusiveNl : List Char → List (List Char)
  | [] => []
  | c :: rest =>
    if c = '\n' then ['\n'] :: splitInclusiveNl rest
    else
      match splitInclusiveNl rest with
      | [] => [[c]]
      | p :: ps => (c :: p) :: ps

/-- The per-line map of Rust `str::lines`: strip one trailing `'\n'`, and a
preceding `'\r'` only when that newline was present. -/
def stripLineEnd (l : List Char) : List Char :=
  if l.getLast? = some '\n' then
    let l' := l.dropLast
    if l'.getLast? = some '\r' then l'.dropLast else l'
  else l

/-- Rust `str::lines()`. -/
def rustLines (s : List Char) : List (List Char) :=
  (splitInclusiveNl s).map stripLineEnd

/-- `text_content.lines()` as used at lines 106–108 of `client.rs`, on
`String`. -/
def rustLinesStr (s : String) : List String :=
  (rustLines s.toList).map List.asString

/-- Oracle for the `scraper` crate: `selectFirstPre html` is the serialized
form (`.html()`) of the first `<pre>` element of `Html::parse_fragment html`,
`none` when the fragment has no `<pre>`; `extractText frag` is the
concatenated text content (`root_element().text().collect()`) of
`Html::parse_fragment frag`. -/
structure HtmlOracle where
  selectFirstPre : String → Option String
  extractText : String → String

/-- The placeholder pushed when extraction yields no lines. -/
def no_content_placeholder : String := "(No content found on this page)"

/-- The line-producing part of `parse_html` (lines 71–113 of `client.rs`):
marker narrowing, `<pre>` selection, anchor rewrite, text extraction, line
split, and the placeholder for an empty result. -/
def extract_lines (o : HtmlOracle) (html : String) : List String :=
  let sect := (content_section html.toList).asString
  let lines :=
    match o.selectFirstPre sect with
    | some pre_html =>
      let cleaned := (replaceLinks pre_html.toList).asString
      let text_content := o.extractText cleaned
      rustLinesStr text_content
    | none => []
  if lines.isEmpty then [no_content_placeholder] else lines

/-- The error kinds produced by the fetch operations of `client.rs` (one
constructor per distinct `bail!`/`.context` site, carrying what the Rust
message carries). -/
inductive FetchError where
  | transportError (ctx cause : String)
  | notFound (page sub_page : Nat)
  | readError (ctx : String)
  | decodeError
  deriving Repr, DecidableEq

/-- `TelevideoClient::parse_html`: always succeeds, with the lines of
`extract_lines` and a wall-clock `%H:%M:%S` stamp `ts`. -/
def parse_html (o : HtmlOracle) (ts : String) (html : String)
    (page sub_page : Nat) : Except FetchError TelevideoPage :=
  .ok { page_number := page, sub_page := sub_page,
        lines := extract_lines o html, timestamp := ts }

/-- Outcome of `reqwest::blocking::get` for the text endpoint: a transport
failure, or a response with a success flag and a body whose read
(`response.text()`) may itself fail. -/
inductive HttpTextResponse where
  | transportErr (cause : String)
  | resp (is_success : Bool) (body : Except String String)

/-- Outcome of `reqwest::blocking::get` for the image endpoint
(`response.bytes()` for the body). -/
inductive HttpBytesResponse where
  | transportErr (cause : String)
  | resp (is_success : Bool) (body : Except String (List Nat))

/-- Ambient effects of `fetch_page`: the network, the HTML library, the
current instant and the formatted local time. -/
structure TextEnv where
  net : String → HttpTextResponse
  html : HtmlOracle
  now : Nat
  ts : String

/-- Ambient effects of `fetch_image`: the network, `image::load_from_memory`
(`none` on undecodable bytes) and the current instant. -/
structure ImageEnv where
  net : String → HttpBytesResponse
  load_from_memory : List Nat → Option DynamicImage
  now : Nat

/-- The network path of `fetch_page` (lines 43–67 of `client.rs`), reached
when the cache has no fresh entry. -/
def fetch_page_miss (e : TextEnv) (c : TelevideoClient) (page sub_page : Nat) :
    Except FetchError TelevideoPage × TelevideoClient :=
  let url := text_url c.base_url page sub_page
  match e.net url with
  | .transportErr cause => (.error (.transportError "Failed to fetch page" cause), c)
  | .resp is_success body =>
    if is_success then
      match body with
      | .error _ => (.error (.readError "Failed to read response"), c)
      | .ok htmlBody =>
        match parse_html e.html e.ts htmlBody page sub_page with
        | .error err => (.error err, c)
        | .ok tp =>
          (.ok tp, { c with cache := mapInsert c.cache (page, sub_page) (tp, e.now) })
    else
      (.error (.notFound page sub_page), c)

/-- `TelevideoClient::fetch_page`: serve a fresh cache entry, otherwise take
the network path. -/
def fetch_page (e : TextEnv) (c : TelevideoClient) (page sub_page : Nat) :
    Except FetchError TelevideoPage × TelevideoClient :=
  match mapGet c.cache (page, sub_page) with
  | some (data, time) =>
    if isFresh time e.now then (.ok data, c)
    else fetch_page_miss e c page sub_page
  | none => fetch_page_miss e c page sub_page

/-- The network path of `fetch_image` (lines 133–158 of `client.rs`). -/
def fetch_image_miss (e : ImageEnv) (c : TelevideoClient) (page sub_page : Nat) :
    Except FetchError DynamicImage × TelevideoClient :=
  let url := image_url c.image_base_url page sub_page
  match e.net url with
  | .transportErr cause => (.error (.transportError "Failed to fetch image" cause), c)
  | .resp is_success body =>
    if is_success then
      match body with
      | .error _ => (.error (.readError "Failed to read image response"), c)
      | .ok bytes =>
        match e.load_from_memory bytes with
        | none => (.error .decodeError, c)
        | some img =>
          (.ok img, { c with image_cache := mapInsert c.image_cache (page, sub_page) (img, e.now) })
    else
      (.error (.notFound page sub_page), c)

/-- `TelevideoClient::fetch_image`: serve a fresh image cache entry,
otherwise take the network path. -/
def fetch_image (e : ImageEnv) (c : TelevideoClient) (page sub_page : Nat) :
    Except FetchError DynamicImage × TelevideoClient :=
  match mapGet c.image_cache (page, sub_page) with
  | some (img, time) =>
    if isFresh time e.now then (.ok img, c)
    else fetch_image_miss e c page sub_page
  | none => fetch_image_miss e c page sub_page

/-- `TelevideoClient::clear_cache`. -/
def clear_cache (c : TelevideoClient) : TelevideoClient :=
  { c with cache := [], image_cache := [] }

/-- The single-attribute anchor form matched by the rewrite regex:
`<a href="u">t</a>`. -/
def anchorHtml (u t : List Char) : List Char :=
  linkOpen ++ u ++ linkMid ++ t ++ linkClose

/-- Newline-join of a line list, the left inverse of the line split used to
state whitespace preservation. -/
def joinNl : List (List Char) → List Char
  | [] => []
  | [l] => l
  | l :: ls => l ++ '\n' :: joinNl ls

/-! ### Concrete fixtures for witness instantiation -/

/-- A concrete page value. -/
def pageW : TelevideoPage :=
  { page_number := 100, sub_page := 1, lines := ["  HELLO"], timestamp := "12:00:00" }

/-- A client whose two caches each hold an entry for `(100, 1)` captured at
instant `1000`. -/
def clientW : TelevideoClient :=
  { TelevideoClient.new with
      cache := [((100, 1), (pageW, 1000))]
      image_cache := [((100, 1), (7, 1000))] }

/-- HTML oracle of a document with no preformatted element. -/
def oracleNone : HtmlOracle := ⟨fun _ => none, fun s => s⟩

/-- Text environment with a constant network response. -/
def envText (r : HttpTextResponse) (now : Nat) : TextEnv :=
  ⟨fun _ => r, oracleNone, now, "12:00:00"⟩

/-- Image environment with a constant network response and decoder. -/
def envImage (r : HttpBytesResponse) (dec : List Nat → Option DynamicImage)
    (now : Nat) : ImageEnv :=
  ⟨fun _ => r, dec, now⟩

/-! ## Theorems -/

/-- Stripping a prefix that is literally there. -/
theorem dropPre?_append (p s : List Char) : dropPre? p (p ++ s) = some s := by
  induction p with
  | nil => rfl
  | cons x xs ih => simp [dropPre?, ih]

/-- `fetch_page_miss` either fails and returns the client unchanged, or
succeeds and only inserts the fetched page into the text cache. -/
theorem fetch_page_miss_spec (e : TextEnv) (c : TelevideoClient)
    (page sub_page : Nat) :
    (∃ err, fetch_page_miss e c page sub_page = (.error err, c))
    ∨ (∃ tp, fetch_page_miss e c page sub_page =
        (.ok tp, { c with cache := mapInsert c.cache (page, sub_page) (tp, e.now) })) := by
  cases hn : e.net (text_url c.base_url page sub_page) with
  | transportErr cause =>
    exact .inl ⟨.transportError "Failed to fetch page" cause,
      by simp [fetch_page_miss, hn]⟩
  | resp is_success body =>
    cases is_success with
    | false =>
      exact .inl ⟨.notFound page sub_page, by simp [fetch_page_miss, hn]⟩
    | true =>
      cases body with
      | error msg =>
        exact .inl ⟨.readError "Failed to read response", by simp [fetch_page_miss, hn]⟩
      | ok htmlBody =>
        exact .inr ⟨{ page_number := page, sub_page := sub_page,
                      lines := extract_lines e.html htmlBody, timestamp := e.ts },
          by simp [fetch_page_miss, hn, parse_html]⟩

/-- `fetch_image_miss` either fails and returns the client unchanged, or
succeeds and only inserts the decoded image into the image cache. -/
theorem fetch_image_miss_spec (e : ImageEnv) (c : TelevideoClient)
    (page sub_page : Nat) :
    (∃ err, fetch_image_miss e c page sub_page = (.error err, c))
    ∨ (∃ img, fetch_image_miss e c page sub_page =
        (.ok img, { c with image_cache := mapInsert c.image_cache (page, sub_page) (img, e.now) })) := by
  cases hn : e.net (image_url c.image_base_url page sub_page) with
  | transportErr cause =>
    exact .inl ⟨.transportError "Failed to fetch image" cause,
      by simp [fetch_image_miss, hn]⟩
  | resp is_success body =>
    cases is_success with
    | false =>
      exact .inl ⟨.notFound page sub_page, by simp [fetch_image_miss, hn]⟩
    | true =>
      cases body with
      | error msg =>
        exact .inl ⟨.readError "Failed to read image response",
          by simp [fetch_image_miss, hn]⟩
      | ok bytes =>
        cases hd : e.load_from_memory bytes with
        | none =>
          exact .inl ⟨.decodeError, by simp [fetch_image_miss, hn, hd]⟩
        | some img =>
          exact .inr ⟨img, by simp [fetch_image_miss, hn, hd]⟩

/-- `fetch_page` either fails with the client unchanged, or succeeds. -/
theorem fetch_page_cases (e : TextEnv) (c : TelevideoClient) (page sub_page : Nat) :
    (∃ err, fetch_page e c page sub_page = (.error err, c))
    ∨ (∃ tp, fetch_page e c page sub_page =
        (.ok tp, c) ∨ fetch_page e c page sub_page =
        (.ok tp, { c with cache := mapInsert c.cache (page, sub_page) (tp, e.now) })) := by
  unfold fetch_page
  cases hg : mapGet c.cache (page, sub_page) with
  | none =>
    rcases fetch_page_miss_spec e c page sub_page with ⟨err, hm⟩ | ⟨tp, hm⟩
    · exact .inl ⟨err, hm⟩
    · exact .inr ⟨tp, .inr hm⟩
  | some v =>
    obtain ⟨data, time⟩ := v
    by_cases hf : isFresh time e.now = true
    · simp only [hf, if_true]
      exact .inr ⟨data, .inl rfl⟩
    · simp only [hf, if_false, Bool.false_eq_true]
      rcases fetch_page_miss_spec e c page sub_page with ⟨err, hm⟩ | ⟨tp, hm⟩
      · exact .inl ⟨err, hm⟩
      · exact .inr ⟨tp, .inr hm⟩

/-- `fetch_image` either fails with the client unchanged, or succeeds. -/
theorem fetch_image_cases (e : ImageEnv) (c : TelevideoClient) (page sub_page : Nat) :
    (∃ err, fetch_image e c page sub_page = (.error err, c))
    ∨ (∃ img, fetch_image e c page sub_page =
        (.ok img, c) ∨ fetch_image e c page sub_page =
        (.ok img, { c with image_cache := mapInsert c.image_cache (page, sub_page) (img, e.now) })) := by
  unfold fetch_image
  cases hg : mapGet c.image_cache (page, sub_page) with
  | none =>
    rcases fetch_image_miss_spec e c page sub_page with ⟨err, hm⟩ | ⟨img, hm⟩
    · exact .inl ⟨err, hm⟩
    · exact .inr ⟨img, .inr hm⟩
  | some v =>
    obtain ⟨img, time⟩ := v
    by_cases hf : isFresh time e.now = true
    · simp only [hf, if_true]
      exact .inr ⟨img, .inl rfl⟩
    · simp only [hf, if_false, Bool.false_eq_true]
      rcases fetch_image_miss_spec e c page sub_page with ⟨err, hm⟩ | ⟨img', hm⟩
      · exact .inl ⟨err, hm⟩
      · exact .inr ⟨img', .inr hm⟩

/-- C9: `clear_cache()` empties both caches unconditionally (it is a total
function, so it cannot fail), is idempotent, and after it the very next
fetch for any key takes the network path. -/
theorem c9_clear_cache (e : TextEnv) (ei : ImageEnv) (c : TelevideoClient)
    (page sub_page : Nat) :
    (clear_cache c).cache = []
    ∧ (clear_cache c).image_cache = []
    ∧ clear_cache (clear_cache c) = clear_cache c
    ∧ fetch_page e (clear_cache c) page sub_page
        = fetch_page_miss e (clear_cache c) page sub_page
    ∧ fetch_image ei (clear_cache c) page sub_page
        = fetch_image_miss ei (clear_cache c) page sub_page :=
  ⟨rfl, rfl, rfl, rfl, rfl⟩

/-- C3: on a cache miss, the text URL carries the `sottopagina` query
parameter exactly when `sub_page > 1`, and the image URL carries the
`.{sub_page}` filename infix exactly when `sub_page > 1`; on the endpoints
of `TelevideoClient::new`, `(101, 1)` and `(101, 2)` give the four spelled-out
URLs. -/
theorem c3_url_construction (base : String) (page sub_page : Nat) :
    (sub_page > 1 →
      text_url base page sub_page
        = base ++ "?pagina=" ++ toString page ++ "&sottopagina=" ++ toString sub_page
      ∧ image_url base page sub_page
        = base ++ "/16_9_page-" ++ toString page ++ "." ++ toString sub_page ++ ".png")
    ∧ (¬ sub_page > 1 →
      text_url base page sub_page = base ++ "?pagina=" ++ toString page
      ∧ image_url base page sub_page = base ++ "/16_9_page-" ++ toString page ++ ".png")
    ∧ text_url TelevideoClient.new.base_url 101 1
        = "https://www.servizitelevideo.rai.it/televideo/pub/solotesto.jsp?pagina=101"
    ∧ text_url TelevideoClient.new.base_url 101 2
        = "https://www.servizitelevideo.rai.it/televideo/pub/solotesto.jsp?pagina=101&sottopagina=2"
    ∧ image_url TelevideoClient.new.image_base_url 101 1
        = "http://www.televideo.rai.it/televideo/pub/tt4web/Nazionale/16_9_page-101.png"
    ∧ image_url TelevideoClient.new.image_base_url 101 2
        = "http://www.televideo.rai.it/televideo/pub/tt4web/Nazionale/16_9_page-101.2.png" := by
  refine ⟨fun h => ⟨?_, ?_⟩, fun h => ⟨?_, ?_⟩, ?_, ?_, ?_, ?_⟩
  · simp [text_url, h]
  · simp [image_url, h]
  · simp [text_url, h]
  · simp [image_url, h]
  · rfl
  · rfl
  · rfl
  · rfl

/-- Witness for C3 at `sub_page = 2` and `sub_page = 1`. -/
theorem c3_url_construction_witness :
    text_url "b" 5 2 = "b" ++ "?pagina=" ++ toString 5 ++ "&sottopagina=" ++ toString 2
    ∧ text_url "b" 5 1 = "b" ++ "?pagina=" ++ toString 5 :=
  ⟨((c3_url_construction "b" 5 2).1 (by decide)).1,
   ((c3_url_construction "b" 5 1).2.1 (by decide)).1⟩

/-- C5: `parse_html` cannot fail: it returns `.ok` on every document, the
line sequence is never empty, and when the processed region has no `<pre>`
element it is exactly the placeholder singleton. -/
theorem c5_extraction_total (o : HtmlOracle) (ts html : String)
    (page sub_page : Nat) :
    parse_html o ts html page sub_page
      = .ok { page_number := page, sub_page := sub_page,
              lines := extract_lines o html, timestamp := ts }
    ∧ extract_lines o html ≠ []
    ∧ (o.selectFirstPre (content_section html.toList).asString = none →
        extract_lines o html = [no_content_placeholder]) := by
  refine ⟨rfl, ?_, ?_⟩
  · unfold extract_lines
    intro hnil
    dsimp only at hnil
    split at hnil
    · simp at hnil
    next h => exact h ((List.isEmpty_iff).mpr hnil)
  · intro hsel
    unfold extract_lines
    simp only [hsel]
    rfl

/-- Witness for C5: a pre-less document yields the placeholder line. -/
theorem c5_extraction_total_witness :
    extract_lines oracleNone "<html></html>" = [no_content_placeholder] :=
  (c5_extraction_total oracleNone "12:00:00" "<html></html>" 100 1).2.2 rfl

/-- C1: a cache entry strictly younger than 300 seconds is served as-is with
no network access (the result does not depend on the network oracle) and no
cache mutation; an entry 300 seconds old or older, or whose age cannot be
determined (`elapsed` fails), sends the operation down the network path.
The one freshness predicate `isFresh` governs both caches. -/
theorem c1_cache_freshness (c : TelevideoClient) (page sub_page : Nat) :
    (∀ (e : TextEnv) (data : TelevideoPage) (time : Nat),
        mapGet c.cache (page, sub_page) = some (data, time) →
        isFresh time e.now = true →
        fetch_page e c page sub_page = (.ok data, c))
    ∧ (∀ (e : TextEnv) (data : TelevideoPage) (time : Nat),
        mapGet c.cache (page, sub_page) = some (data, time) →
        isFresh time e.now = false →
        fetch_page e c page sub_page = fetch_page_miss e c page sub_page)
    ∧ (∀ (e : ImageEnv) (img : DynamicImage) (time : Nat),
        mapGet c.image_cache (page, sub_page) = some (img, time) →
        isFresh time e.now = true →
        fetch_image e c page sub_page = (.ok img, c))
    ∧ (∀ (e : ImageEnv) (img : DynamicImage) (time : Nat),
        mapGet c.image_cache (page, sub_page) = some (img, time) →
        isFresh time e.now = false →
        fetch_image e c page sub_page = fetch_image_miss e c page sub_page) := by
  refine ⟨?_, ?_, ?_, ?_⟩
  · intro e data time hget hfresh
    unfold fetch_page
    rw [hget]
    simp [hfresh]
  · intro e data time hget hfresh
    unfold fetch_page
    rw [hget]
    simp [hfresh]
  · intro e img time hget hfresh
    unfold fetch_image
    rw [hget]
    simp [hfresh]
  · intro e img time hget hfresh
    unfold fetch_image
    rw [hget]
    simp [hfresh]

/-- Witness for C1: a fresh text/image hit is served, a stale and an
age-undeterminable entry go to the network path. -/
theorem c1_cache_freshness_witness :
    fetch_page (envText (.resp true (.ok "")) 1000) clientW 100 1 = (.ok pageW, clientW)
    ∧ fetch_page (envText (.resp true (.ok "")) 0) clientW 100 1
        = fetch_page_miss (envText (.resp true (.ok "")) 0) clientW 100 1
    ∧ fetch_image (envImage (.resp true (.ok [])) (fun _ => none) 1000) clientW 100 1
        = (.ok 7, clientW)
    ∧ fetch_image (envImage (.resp true (.ok [])) (fun _ => none) (secsToNanos 1000)) clientW 100 1
        = fetch_image_miss (envImage (.resp true (.ok [])) (fun _ => none) (secsToNanos 1000)) clientW 100 1 :=
  ⟨(c1_cache_freshness clientW 100 1).1 _ pageW 1000 (by decide) (by decide),
   (c1_cache_freshness clientW 100 1).2.1 _ pageW 1000 (by decide) (by decide),
   (c1_cache_freshness clientW 100 1).2.2.1 _ 7 1000 (by decide) (by decide),
   (c1_cache_freshness clientW 100 1).2.2.2 _ 7 1000 (by decide) (by decide)⟩

/-- C2: a fetch that returns an error leaves the client (both caches and the
endpoint fields) exactly as it was; a fetch that changed the state returned
success, so an insert happens only on the success path. -/
theorem c2_failure_preserves_caches (e : TextEnv) (ei : ImageEnv)
    (c : TelevideoClient) (page sub_page : Nat) :
    (∀ err, (fetch_page e c page sub_page).1 = .error err →
        (fetch_page e c page sub_page).2 = c)
    ∧ (∀ err, (fetch_image ei c page sub_page).1 = .error err →
        (fetch_image ei c page sub_page).2 = c)
    ∧ ((fetch_page e c page sub_page).2 ≠ c →
        ∃ tp, (fetch_page e c page sub_page).1 = .ok tp)
    ∧ ((fetch_image ei c page sub_page).2 ≠ c →
        ∃ img, (fetch_image ei c page sub_page).1 = .ok img) := by
  refine ⟨?_, ?_, ?_, ?_⟩
  · intro err h1
    rcases fetch_page_cases e c page sub_page with ⟨err', hm⟩ | ⟨tp, hm | hm⟩
    · rw [hm]
    · rw [hm] at h1
      simp at h1
    · rw [hm] at h1
      simp at h1
  · intro err h1
    rcases fetch_image_cases ei c page sub_page with ⟨err', hm⟩ | ⟨img, hm | hm⟩
    · rw [hm]
    · rw [hm] at h1
      simp at h1
    · rw [hm] at h1
      simp at h1
  · intro hne
    rcases fetch_page_cases e c page sub_page with ⟨err', hm⟩ | ⟨tp, hm | hm⟩
    · rw [hm] at hne
      simp at hne
    · exact ⟨tp, by rw [hm]⟩
    · exact ⟨tp, by rw [hm]⟩
  · intro hne
    rcases fetch_image_cases ei c page sub_page with ⟨err', hm⟩ | ⟨img, hm | hm⟩
    · rw [hm] at hne
      simp at hne
    · exact ⟨img, by rw [hm]⟩
    · exact ⟨img, by rw [hm]⟩

/-- Witness for C2: a 404 on each endpoint leaves a pristine client pristine. -/
theorem c2_failure_preserves_caches_witness :
    (fetch_page (envText (.resp false (.ok "")) 0) TelevideoClient.new 100 1).2
      = TelevideoClient.new
    ∧ (fetch_image (envImage (.resp false (.ok [])) (fun _ => none) 0) TelevideoClient.new 100 1).2
      = TelevideoClient.new :=
  ⟨(c2_failure_preserves_caches (envText (.resp false (.ok "")) 0)
      (envImage (.resp false (.ok [])) (fun _ => none) 0)
      TelevideoClient.new 100 1).1 (.notFound 100 1) rfl,
   (c2_failure_preserves_caches (envText (.resp false (.ok "")) 0)
      (envImage (.resp false (.ok [])) (fun _ => none) 0)
      TelevideoClient.new 100 1).2.1 (.notFound 100 1) rfl⟩

/-- C4: on the network path, a non-success HTTP status yields
`notFound page sub_page` for both operations, undecodable image bytes yield
`decodeError`, a body-read failure yields `readError`, and the kinds are
pairwise distinguishable from `notFound`. -/
theorem c4_error_kinds (e : TextEnv) (ei : ImageEnv) (c : TelevideoClient)
    (page sub_page : Nat) :
    (∀ body, mapGet c.cache (page, sub_page) = none →
      e.net (text_url c.base_url page sub_page) = .resp false body →
      fetch_page e c page sub_page = (.error (.notFound page sub_page), c))
    ∧ (∀ body, mapGet c.image_cache (page, sub_page) = none →
      ei.net (image_url c.image_base_url page sub_page) = .resp false body →
      fetch_image ei c page sub_page = (.error (.notFound page sub_page), c))
    ∧ (∀ bytes, mapGet c.image_cache (page, sub_page) = none →
      ei.net (image_url c.image_base_url page sub_page) = .resp true (.ok bytes) →
      ei.load_from_memory bytes = none →
      fetch_image ei c page sub_page = (.error .decodeError, c))
    ∧ (∀ msg, mapGet c.cache (page, sub_page) = none →
      e.net (text_url c.base_url page sub_page) = .resp true (.error msg) →
      fetch_page e c page sub_page = (.error (.readError "Failed to read response"), c))
    ∧ (∀ msg, mapGet c.image_cache (page, sub_page) = none →
      ei.net (image_url c.image_base_url page sub_page) = .resp true (.error msg) →
      fetch_image ei c page sub_page
        = (.error (.readError "Failed to read image response"), c))
    ∧ FetchError.decodeError ≠ FetchError.notFound page sub_page
    ∧ (∀ ctx, FetchError.readError ctx ≠ FetchError.notFound page sub_page) := by
  refine ⟨?_, ?_, ?_, ?_, ?_, by simp, by simp⟩
  · intro body hget hn
    unfold fetch_page fetch_page_miss
    simp [hget, hn]
  · intro body hget hn
    unfold fetch_image fetch_image_miss
    simp [hget, hn]
  · intro bytes hget hn hd
    unfold fetch_image fetch_image_miss
    simp [hget, hn, hd]
  · intro msg hget hn
    unfold fetch_page fetch_page_miss
    simp [hget, hn]
  · intro msg hget hn
    unfold fetch_image fetch_image_miss
    simp [hget, hn]

/-- Witness for C4: 404, undecodable bytes and a read failure at concrete
inputs. -/
theorem c4_error_kinds_witness :
    fetch_page (envText (.resp false (.ok "")) 0) TelevideoClient.new 100 2
      = (.error (.notFound 100 2), TelevideoClient.new)
    ∧ fetch_image (envImage (.resp true (.ok [1, 2])) (fun _ => none) 0)
        TelevideoClient.new 100 1
      = (.error .decodeError, TelevideoClient.new)
    ∧ fetch_page (envText (.resp true (.error "boom")) 0) TelevideoClient.new 100 1
      = (.error (.readError "Failed to read response"), TelevideoClient.new) :=
  ⟨(c4_error_kinds (envText (.resp false (.ok "")) 0)
      (envImage (.resp true (.ok [1, 2])) (fun _ => none) 0)
      TelevideoClient.new 100 2).1 (.ok "") rfl rfl,
   (c4_error_kinds (envText (.resp false (.ok "")) 0)
      (envImage (.resp true (.ok [1, 2])) (fun _ => none) 0)
      TelevideoClient.new 100 1).2.2.1 [1, 2] rfl rfl rfl,
   (c4_error_kinds (envText (.resp true (.error "boom")) 0)
      (envImage (.resp true (.ok [1, 2])) (fun _ => none) 0)
      TelevideoClient.new 100 1).2.2.2.1 "boom" rfl rfl⟩

/-- `fetch_page` neither reads nor writes the image cache: its result and its
effect on the text cache are the same for any two image-cache contents. -/
theorem fetch_page_ignores_image_cache (e : TextEnv)
    (tc : List (PageKey × (TelevideoPage × Nat)))
    (ic1 ic2 : List (PageKey × (DynamicImage × Nat))) (bu ibu : String)
    (page sub_page : Nat) :
    (fetch_page e ⟨tc, ic1, bu, ibu⟩ page sub_page).1
      = (fetch_page e ⟨tc, ic2, bu, ibu⟩ page sub_page).1
    ∧ (fetch_page e ⟨tc, ic1, bu, ibu⟩ page sub_page).2.cache
      = (fetch_page e ⟨tc, ic2, bu, ibu⟩ page sub_page).2.cache := by
  unfold fetch_page fetch_page_miss
  dsimp only
  cases hg : mapGet tc (page, sub_page) with
  | none =>
    cases hn : e.net (text_url bu page sub_page) with
    | transportErr cause => exact ⟨rfl, rfl⟩
    | resp is_success body =>
      cases is_success <;> cases body <;> exact ⟨rfl, rfl⟩
  | some v =>
    obtain ⟨data, time⟩ := v
    by_cases hf : isFresh time e.now = true
    · simp [hf]
    · simp only [hf, if_false, Bool.false_eq_true]
      cases hn : e.net (text_url bu page sub_page) with
      | transportErr cause => exact ⟨rfl, rfl⟩
      | resp is_success body =>
        cases is_success <;> cases body <;> exact ⟨rfl, rfl⟩

/-- `fetch_image` neither reads nor writes the text cache: its result and its
effect on the image cache are the same for any two text-cache contents. -/
theorem fetch_image_ignores_text_cache (e : ImageEnv)
    (tc1 tc2 : List (PageKey × (TelevideoPage × Nat)))
    (ic : List (PageKey × (DynamicImage × Nat))) (bu ibu : String)
    (page sub_page : Nat) :
    (fetch_image e ⟨tc1, ic, bu, ibu⟩ page sub_page).1
      = (fetch_image e ⟨tc2, ic, bu, ibu⟩ page sub_page).1
    ∧ (fetch_image e ⟨tc1, ic, bu, ibu⟩ page sub_page).2.image_cache
      = (fetch_image e ⟨tc2, ic, bu, ibu⟩ page sub_page).2.image_cache := by
  unfold fetch_image fetch_image_miss
  dsimp only
  cases hg : mapGet ic (page, sub_page) with
  | none =>
    cases hn : e.net (image_url ibu page sub_page) with
    | transportErr cause => exact ⟨rfl, rfl⟩
    | resp is_success body =>
      cases is_success with
      | false => cases body <;> exact ⟨rfl, rfl⟩
      | true =>
        cases body with
        | error msg => exact ⟨rfl, rfl⟩
        | ok bytes =>
          cases hd : e.load_from_memory bytes with
          | none => simp [hd]
          | some img => simp [hd]
  | some v =>
    obtain ⟨img, time⟩ := v
    by_cases hf : isFresh time e.now = true
    · simp [hf]
    · simp only [hf, if_false, Bool.false_eq_true]
      cases hn : e.net (image_url ibu page sub_page) with
      | transportErr cause => exact ⟨rfl, rfl⟩
      | resp is_success body =>
        cases is_success with
        | false => cases body <;> exact ⟨rfl, rfl⟩
        | true =>
          cases body with
          | error msg => exact ⟨rfl, rfl⟩
          | ok bytes =>
            cases hd : e.load_from_memory bytes with
            | none => simp [hd]
            | some img => simp [hd]

/-- C10: `fetch_page` writes only the text cache (the image cache and both
endpoint fields are unchanged) and reads only the text cache (its result and
text-cache effect are independent of the image cache); symmetrically for
`fetch_image`. -/
theorem c10_cache_independence (e : TextEnv) (ei : ImageEnv)
    (c : TelevideoClient) (page sub_page : Nat) :
    ((fetch_page e c page sub_page).2.image_cache = c.image_cache
      ∧ (fetch_page e c page sub_page).2.base_url = c.base_url
      ∧ (fetch_page e c page sub_page).2.image_base_url = c.image_base_url)
    ∧ ((fetch_image ei c page sub_page).2.cache = c.cache
      ∧ (fetch_image ei c page sub_page).2.base_url = c.base_url
      ∧ (fetch_image ei c page sub_page).2.image_base_url = c.image_base_url)
    ∧ (∀ ic, (fetch_page e { c with image_cache := ic } page sub_page).1
          = (fetch_page e c page sub_page).1
        ∧ (fetch_page e { c with image_cache := ic } page sub_page).2.cache
          = (fetch_page e c page sub_page).2.cache)
    ∧ (∀ tc, (fetch_image ei { c with cache := tc } page sub_page).1
          = (fetch_image ei c page sub_page).1
        ∧ (fetch_image ei { c with cache := tc } page sub_page).2.image_cache
          = (fetch_image ei c page sub_page).2.image_cache) := by
  refine ⟨?_, ?_, ?_, ?_⟩
  · rcases fetch_page_cases e c page sub_page with ⟨err', hm⟩ | ⟨tp, hm | hm⟩ <;>
      exact ⟨by rw [hm], by rw [hm], by rw [hm]⟩
  · rcases fetch_image_cases ei c page sub_page with ⟨err', hm⟩ | ⟨img, hm | hm⟩ <;>
      exact ⟨by rw [hm], by rw [hm], by rw [hm]⟩
  · intro ic
    obtain ⟨tc0, ic0, bu, ibu⟩ := c
    exact fetch_page_ignores_image_cache e tc0 ic ic0 bu ibu page sub_page
  · intro tc
    obtain ⟨tc0, ic0, bu, ibu⟩ := c
    exact fetch_image_ignores_text_cache ei tc tc0 ic0 bu ibu page sub_page

/-- Unfolding of `replaceLinks` on a match at the head of the string. -/
theorem replaceLinks_of_match (c : Char) (rest t rem : List Char)
    (h : matchLink (c :: rest) = some (t, rem)) :
    replaceLinks (c :: rest) = t ++ replaceLinks rem := by
  rw [replaceLinks.eq_def]
  dsimp only
  split
  next t' rem' h' =>
    rw [h] at h'
    injection h' with hp
    injection hp with h1 h2
    subst h1
    subst h2
    rfl
  next h' =>
    rw [h] at h'
    exact absurd h' (by simp)

/-- Unfolding of `replaceLinks` when the head of the string starts no match. -/
theorem replaceLinks_of_none (c : Char) (rest : List Char)
    (h : matchLink (c :: rest) = none) :
    replaceLinks (c :: rest) = c :: replaceLinks rest := by
  rw [replaceLinks.eq_def]
  dsimp only
  split
  next t' rem' h' =>
    rw [h] at h'
    exact absurd h' (by simp)
  next h' => rfl

/-- A `takeWhile` scan stops exactly at the first failing character. -/
theorem takeWhile_append_cons (p : Char → Bool) (u : List Char) (x : Char)
    (r : List Char) (hu : ∀ c ∈ u, p c = true) (hx : p x = false) :
    (u ++ x :: r).takeWhile p = u := by
  induction u with
  | nil => simp [List.takeWhile_cons, hx]
  | cons c cs ih =>
    have hc := hu c (by simp)
    simp [List.takeWhile_cons, hc, ih (fun d hd => hu d (by simp [hd]))]

/-- The anchor regex matches the single-attribute anchor form at the head of
a string, capturing exactly the visible text and consuming exactly the
anchor. -/
theorem matchLink_anchor (u t rest : List Char)
    (hu : '"' ∉ u) (ht : t ≠ []) (ht2 : '<' ∉ t) :
    matchLink (anchorHtml u t ++ rest) = some (t, rest) := by
  have hm : linkMid = ['"', '>'] := by decide
  have hc : linkClose = ['<', '/', 'a', '>'] := by decide
  have e1 : anchorHtml u t ++ rest
      = linkOpen ++ (u ++ ('"' :: '>' :: (t ++ ('<' :: '/' :: 'a' :: '>' :: rest)))) := by
    simp [anchorHtml, hm, hc]
  have hmid : ∀ Y : List Char, dropPre? linkMid ('"' :: '>' :: Y) = some Y := by
    intro Y
    rw [hm]
    simp [dropPre?]
  have hcl : ∀ Z : List Char, dropPre? linkClose ('<' :: '/' :: 'a' :: '>' :: Z) = some Z := by
    intro Z
    rw [hc]
    simp [dropPre?]
  rw [e1]
  unfold matchLink
  rw [dropPre?_append]
  dsimp only
  rw [takeWhile_append_cons _ u '"' _
    (fun c hcu => by
      simp only [decide_eq_true_eq]
      exact fun hq => hu (hq ▸ hcu)) (by simp)]
  rw [List.drop_left]
  rw [hmid]
  dsimp only
  rw [takeWhile_append_cons _ t '<' _
    (fun c hcu => by
      simp only [decide_eq_true_eq]
      exact fun hq => ht2 (hq ▸ hcu)) (by simp)]
  rw [if_neg ht]
  rw [List.drop_left]
  rw [hcl]

/-- `replaceLinks` on any nonempty string whose head starts a match. -/
theorem replaceLinks_of_match_ne (s t rem : List Char) (hs : s ≠ [])
    (h : matchLink s = some (t, rem)) :
    replaceLinks s = t ++ replaceLinks rem := by
  cases s with
  | nil => exact absurd rfl hs
  | cons c rest => exact replaceLinks_of_match c rest t rem h

/-- A string in which no position starts a match is left unchanged. -/
theorem replaceLinks_id_of_no_match (s : List Char)
    (h : ∀ i, matchLink (s.drop i) = none) : replaceLinks s = s := by
  induction s with
  | nil => rw [replaceLinks.eq_def]
  | cons c rest ih =>
    have h0 := h 0
    rw [List.drop_zero] at h0
    rw [replaceLinks_of_none c rest h0]
    rw [ih (fun i => by have hi := h (i + 1); rwa [List.drop_succ_cons] at hi)]

/-- C8: every occurrence of the single-attribute anchor form
`<a href="u">t</a>` (double-quoted href as only attribute, nonempty text
with no nested markup) is rewritten to exactly its visible text, the target
discarded, and the leftmost scan continues after it; a string in which no
position matches the pattern — any anchor of another shape included — is
returned unchanged. -/
theorem c8_anchor_rewrite (u t rest : List Char)
    (hu : '"' ∉ u) (ht : t ≠ []) (ht2 : '<' ∉ t) :
    replaceLinks (anchorHtml u t ++ rest) = t ++ replaceLinks rest
    ∧ ∀ s : List Char, (∀ i, matchLink (s.drop i) = none) → replaceLinks s = s := by
  constructor
  · have hne : anchorHtml u t ++ rest ≠ [] := by
      simp [anchorHtml, List.append_eq_nil, linkOpen]
    exact replaceLinks_of_match_ne _ t rest hne (matchLink_anchor u t rest hu ht ht2)
  · exact fun s hs => replaceLinks_id_of_no_match s hs

/-- Witness for C8: a concrete well-formed anchor is rewritten to its text,
and an anchor with an extra attribute is left untouched. -/
theorem c8_anchor_rewrite_witness :
    replaceLinks (anchorHtml "p101".toList "Politica".toList ++ " resto".toList)
      = "Politica".toList ++ replaceLinks " resto".toList
    ∧ replaceLinks "<a class=\"x\" href=\"u\">t</a>".toList
      = "<a class=\"x\" href=\"u\">t</a>".toList := by
  have h := c8_anchor_rewrite "p101".toList "Politica".toList " resto".toList
    (by decide) (by decide) (by decide)
  have hb : ∀ i < "<a class=\"x\" href=\"u\">t</a>".toList.length,
      matchLink ("<a class=\"x\" href=\"u\">t</a>".toList.drop i) = none := by decide
  refine ⟨h.1, h.2 _ (fun i => ?_)⟩
  by_cases hi : i < "<a class=\"x\" href=\"u\">t</a>".toList.length
  · exact hb i hi
  · rw [List.drop_eq_nil_of_le (Nat.le_of_not_lt hi)]
    rfl

/-- C6: when the first start marker is at position `a.length` and the first
end marker after it is at offset `b.length`, the narrowing step keeps
exactly the substring `b` strictly between the two markers; when the start
marker is absent, or no end marker follows the start marker, the whole
document is processed instead of failing. -/
theorem c6_marker_narrowing :
    (∀ a b cc : List Char,
      listFind start_marker (a ++ start_marker ++ b ++ end_marker ++ cc) = some a.length →
      listFind end_marker (b ++ end_marker ++ cc) = some b.length →
      content_section (a ++ start_marker ++ b ++ end_marker ++ cc) = b)
    ∧ (∀ html, listFind start_marker html = none → content_section html = html)
    ∧ (∀ html i, listFind start_marker html = some i →
        listFind end_marker (html.drop (i + start_marker.length)) = none →
        content_section html = html) := by
  refine ⟨?_, ?_, ?_⟩
  · intro a b cc h1 h2
    unfold content_section
    rw [h1]
    dsimp only
    have hd : (a ++ start_marker ++ b ++ end_marker ++ cc).drop (a.length + start_marker.length)
        = b ++ end_marker ++ cc := by
      have e : a ++ start_marker ++ b ++ end_marker ++ cc
          = (a ++ start_marker) ++ (b ++ end_marker ++ cc) := by
        simp [List.append_assoc]
      rw [e, ← List.length_append]
      exact List.drop_left _ _
    rw [hd, h2]
    dsimp only
    rw [List.append_assoc]
    exact List.take_left _ _
  · intro html h
    unfold content_section
    rw [h]
  · intro html i h1 h2
    unfold content_section
    rw [h1]
    dsimp only
    rw [h2]

/-- Witness for C6: a document with both markers narrows to the body between
them; a marker-less document and a start-only document pass through whole. -/
theorem c6_marker_narrowing_witness :
    content_section ("xy".toList ++ start_marker ++ "<pre>ok</pre>".toList
        ++ end_marker ++ "tail".toList) = "<pre>ok</pre>".toList
    ∧ content_section "no markers at all".toList = "no markers at all".toList
    ∧ content_section ("z".toList ++ start_marker ++ "body without end".toList)
        = "z".toList ++ start_marker ++ "body without end".toList :=
  ⟨c6_marker_narrowing.1 "xy".toList "<pre>ok</pre>".toList "tail".toList
      (by decide) (by decide),
   c6_marker_narrowing.2.1 _ (by decide),
   c6_marker_narrowing.2.2 _ 1 (by decide) (by decide)⟩

/-- Behavior of split_inclusive on a newline-free nonempty string: one piece. -/
theorem splitInclusiveNl_no_newline (l : List Char) (hl : '\n' ∉ l) (hne : l ≠ []) :
    splitInclusiveNl l = [l] := by
  induction l with
  | nil => exact absurd rfl hne
  | cons c rest ih =>
    have hc : ¬ c = '\n' := fun h => hl (h ▸ List.mem_cons_self c rest)
    by_cases hr : rest = []
    · subst hr
      simp [splitInclusiveNl, hc]
    · have hs := ih (fun h => hl (List.mem_cons_of_mem c h)) hr
      simp [splitInclusiveNl, hc, hs]

/-- Behavior of split_inclusive: it peels one newline-terminated piece off the front. -/
theorem splitInclusiveNl_append_newline (l s : List Char) (hl : '\n' ∉ l) :
    splitInclusiveNl (l ++ '\n' :: s) = (l ++ ['\n']) :: splitInclusiveNl s := by
  induction l with
  | nil => simp [splitInclusiveNl]
  | cons c rest ih =>
    have hc : ¬ c = '\n' := fun h => hl (h ▸ List.mem_cons_self c rest)
    have ihr := ih (fun h => hl (List.mem_cons_of_mem c h))
    simp [splitInclusiveNl, hc, ihr]

/-- Stripping the line end of a CR-free line with a trailing newline gives the line. -/
theorem stripLineEnd_concat_newline (l : List Char) (hr : '\r' ∉ l) :
    stripLineEnd (l ++ ['\n']) = l := by
  unfold stripLineEnd
  rw [List.getLast?_concat]
  rw [if_pos rfl]
  dsimp only
  rw [List.dropLast_concat]
  rw [if_neg (fun hq => hr (List.mem_of_mem_getLast? (by simp [hq])))]

/-- A line with no trailing newline is not stripped. -/
theorem stripLineEnd_no_newline (l : List Char) (h : '\n' ∉ l) :
    stripLineEnd l = l := by
  unfold stripLineEnd
  rw [if_neg (fun hq => h (List.mem_of_mem_getLast? (by simp [hq])))]

/-- The lines split is a left inverse of newline-joining for line lists whose
lines hold no line-break characters and whose last line is nonempty. -/
theorem rustLines_joinNl (ls : List (List Char))
    (h1 : ∀ l ∈ ls, '\n' ∉ l ∧ '\r' ∉ l) (hne : ls ≠ [])
    (hlast : ls.getLast? ≠ some []) : rustLines (joinNl ls) = ls := by
  induction ls with
  | nil => exact absurd rfl hne
  | cons l ls' ih =>
    cases ls' with
    | nil =>
      have hl := h1 l (List.mem_cons_self l [])
      have hlne : l ≠ [] := by
        intro hq
        exact hlast (by simp [hq])
      show rustLines (joinNl [l]) = [l]
      have hj : joinNl [l] = l := rfl
      rw [hj]
      unfold rustLines
      rw [splitInclusiveNl_no_newline l hl.1 hlne]
      simp [stripLineEnd_no_newline l hl.1]
    | cons l2 ls'' =>
      have hl := h1 l (by simp)
      have hrest : ∀ x ∈ l2 :: ls'', '\n' ∉ x ∧ '\r' ∉ x :=
        fun x hx => h1 x (List.mem_cons_of_mem l hx)
      have hj : joinNl (l :: l2 :: ls'') = l ++ '\n' :: joinNl (l2 :: ls'') := rfl
      rw [hj]
      unfold rustLines
      rw [splitInclusiveNl_append_newline _ _ hl.1]
      rw [List.map_cons]
      rw [stripLineEnd_concat_newline l hl.2]
      have ihr := ih hrest (List.cons_ne_nil l2 ls'')
        (by rwa [List.getLast?_cons_cons] at hlast)
      unfold rustLines at ihr
      rw [ihr]

/-- C7: the line split preserves empty lines and the exact leading and
trailing spaces of every line (splitting the newline-join of any such line
list gives back exactly that list), and through the extraction pipeline the
output line sequence is exactly those lines. -/
theorem c7_whitespace_preservation (ls : List (List Char))
    (h1 : ∀ l ∈ ls, '\n' ∉ l ∧ '\r' ∉ l) (h2 : ls ≠ [])
    (h3 : ls.getLast? ≠ some []) :
    rustLines (joinNl ls) = ls
    ∧ ∀ (o : HtmlOracle) (html pre_html : String),
        o.selectFirstPre (content_section html.toList).asString = some pre_html →
        o.extractText (replaceLinks pre_html.toList).asString = (joinNl ls).asString →
        extract_lines o html = ls.map List.asString := by
  have main := rustLines_joinNl ls h1 h2 h3
  refine ⟨main, ?_⟩
  intro o html pre_html hsel htext
  unfold extract_lines
  simp only [hsel]
  rw [htext]
  have hr : rustLinesStr ((joinNl ls).asString) = ls.map List.asString := by
    unfold rustLinesStr
    have e : ((joinNl ls).asString).toList = joinNl ls := rfl
    rw [e, main]
  rw [hr]
  have hie : (ls.map List.asString).isEmpty = false := by
    cases ls with
    | nil => exact absurd rfl h2
    | cons a as => rfl
  simp [hie]

/-- Witness for C7: the concrete two-line example of the spec, via the line
split alone and via the extraction pipeline. -/
theorem c7_whitespace_preservation_witness :
    rustLinesStr "  HELLO\n   WORLD  " = ["  HELLO", "   WORLD  "]
    ∧ extract_lines ⟨fun _ => some "", fun _ => "  HELLO\n   WORLD  "⟩ "x"
        = ["  HELLO", "   WORLD  "] := by
  have h := c7_whitespace_preservation ["  HELLO".toList, "   WORLD  ".toList]
    (by decide) (by decide) (by decide)
  constructor
  · have e : "  HELLO\n   WORLD  ".toList
        = joinNl ["  HELLO".toList, "   WORLD  ".toList] := by decide
    unfold rustLinesStr
    rw [e, h.1]
    decide
  · exact (h.2 ⟨fun _ => some "", fun _ => "  HELLO\n   WORLD  "⟩ "x" ""
      rfl (by decide)).trans (by decide)

end Televideo
